import Mathlib

/-!
Verification development for the Strava sync/cache core.

Shallow embedding of the incremental-synchronization pipeline:
  - src/main.py              (main, process_new_activities, process_individual_activity,
                              process_gear_data)
  - src/src/db/db_manager.py (DatabaseManager: execute_query, validate_table,
                              update_cache, get_ids_from_cache, insert_dataframe_to_db,
                              check_strava_database_discrepancies)
  - src/src/db/queries.py    (ALLOWED_TABLES, INSERT_ID_TO_CACHE, INSERT_OR_IGNORE_QUERY,
                              table schemas giving each table its primary key)
  - src/src/models/streams.py (Streams.process_streams, Streams.get_streams)

The SQLite store is modelled as a map from table name to a list of rows; a row is an
association list from column name to value, exactly the shape produced by
`df.to_dict(orient="records")`.  `INSERT OR IGNORE` is modelled by its documented
semantics: the new row is appended unless some existing row agrees with it on every
primary-key column of the target table.  `INSERT OR REPLACE` (used only for the cache
table) removes any row with the same key and appends the new one.  Each statement is
committed on its own (`execute_query` opens a connection, executes, commits), so the
sequential order of the model's state updates is the commit order of the program.

The remote Strava client (src/src/api/strava_api/strava_api.py, not part of the
sources here) is a black box: it is modelled as an oracle `Remote` whose fetches
either raise (`Fetch.err`), return a falsy/empty payload, or return data.
-/

/-- An SQLite value as it appears in this pipeline (integers and text; the numeric
subtypes are irrelevant to every property considered here). -/
inductive Value where
  | int : Int → Value
  | text : String → Value
deriving DecidableEq, Repr

/-- One table row: column name to value, as in `df.to_dict(orient="records")`. -/
abbrev Row := List (String × Value)

/-- One table: the list of its rows, in insertion order. -/
abbrev Table := List Row

/-- The database: a map from table name to its rows. -/
abbrev Db := String → Table

/-- The database with every table empty. -/
def emptyDb : Db := fun _ => []

/-- Replace one table's rows, leaving all other tables as they were. -/
def setTable (db : Db) (t : String) (rows : Table) : Db :=
  fun t0 => if t0 = t then rows else db t0

/-- Value of column `c` in a row (`None` when the column is absent). -/
def lookupCol (row : Row) (c : String) : Option Value :=
  (row.find? (fun p => decide (p.fst = c))).map Prod.snd

/-- src/src/db/queries.py, `ALLOWED_TABLES`. -/
def ALLOWED_TABLES : List String :=
  ["activities", "best_efforts", "gear", "splits", "zones", "cache", "streams", "health"]

/-- Primary-key columns of each table, from the `CREATE TABLE` statements in
src/src/db/queries.py (`CREATE_ALL_TABLES`). -/
def primaryKeyCols : String → List String
  | "activities" => ["id"]
  | "best_efforts" => ["id", "name"]
  | "gear" => ["gear_id"]
  | "splits" => ["id"]
  | "zones" => ["id", "zone_type", "min_value", "max_value"]
  | "streams" => ["id"]
  | "cache" => ["id"]
  | "health" => ["date"]
  | _ => []

/-- The primary-key projection of a row for table `t`. -/
def rowKey (t : String) (row : Row) : List (Option Value) :=
  (primaryKeyCols t).map (lookupCol row)

/-- Semantics of one `INSERT OR IGNORE INTO t ... VALUES ...` statement
(src/src/db/queries.py, `INSERT_OR_IGNORE_QUERY`): the row is appended unless an
existing row has the same primary key.  (Every row this pipeline inserts populates
its key columns, so the SQL corner case of NULL keys does not arise.) -/
def insertOrIgnoreRow (t : String) (tbl : Table) (row : Row) : Table :=
  if tbl.any (fun r0 => decide (rowKey t r0 = rowKey t row)) then tbl else tbl ++ [row]

/-- src/src/db/db_manager.py, `DatabaseManager.insert_dataframe_to_db` with the
default `INSERT_OR_IGNORE_QUERY`.  The table name is validated against
`ALLOWED_TABLES` first (`validate_table` raises `ValueError`, modelled as
`Except.error`, before any query string is formatted); a `None` or empty DataFrame
is then a no-op; otherwise each row is inserted by its own statement, in order.
The returned `Nat` counts the insert statements executed. -/
def insert_dataframe_to_db (db : Db) (df : Option (List Row)) (table_name : String) :
    Except String (Db × Nat) :=
  if table_name ∈ ALLOWED_TABLES then
    match df with
    | none => .ok (db, 0)
    | some rows =>
      if rows.isEmpty then .ok (db, 0)
      else
        .ok (setTable db table_name (rows.foldl (insertOrIgnoreRow table_name) (db table_name)),
          rows.length)
  else
    .error ("Invalid table name: " ++ table_name)

/-- `insert_dataframe_to_db` as used by the orchestrator, where the table name is one
of the allow-listed constants so the `ValueError` branch is unreachable. -/
def insertOk (db : Db) (rows : List Row) (t : String) : Db :=
  match insert_dataframe_to_db db (some rows) t with
  | .ok p => p.fst
  | .error _ => db

/-- src/src/db/db_manager.py, `DatabaseManager.update_cache`: one
`INSERT OR REPLACE INTO cache (id) VALUES (?)` statement
(src/src/db/queries.py, `INSERT_ID_TO_CACHE`), committed immediately. -/
def update_cache (db : Db) (v : Value) : Db :=
  setTable db "cache"
    (((db "cache").filter (fun r => !(decide (rowKey "cache" r = rowKey "cache" [("id", v)]))))
      ++ [[("id", v)]])

/-- Result column of a single-column `SELECT` over a table. -/
def selectIds (tbl : Table) (col : String) : List Value :=
  tbl.filterMap (fun r => lookupCol r col)

/-- src/src/db/db_manager.py, `DatabaseManager.execute_query`, restricted to the
`SELECT` queries used by the id readers: any `sqlite3.Error` raised while executing
is caught and the empty list is returned instead of propagating. -/
def execute_query_select (sqliteError : Bool) (result : List Value) : List Value :=
  if sqliteError then [] else result

/-- src/src/db/db_manager.py, `DatabaseManager.get_ids_from_cache`
(`SELECT id FROM cache;`), with `execute_query`'s error handling made explicit:
`cacheReadFails` is true when the underlying query raises an `sqlite3.Error`. -/
def get_ids_from_cache (cacheReadFails : Bool) (db : Db) : List Value :=
  execute_query_select cacheReadFails (selectIds (db "cache") "id")

/-- src/src/db/db_manager.py, `DatabaseManager.get_ids_from_activities`
(`SELECT id FROM activities;`). -/
def get_ids_from_activities (db : Db) : List Value :=
  selectIds (db "activities") "id"

/-- src/src/db/db_manager.py, `DatabaseManager.check_strava_database_discrepancies`:
reads the activities ids and the cache ids (two `SELECT`s, no mutation), computes
`[item for item in activities_ids if item not in cached_ids]`, and warns with the
count and the offending ids iff that list is non-empty.  The emitted warning is
returned as `some (count, ids)`; `none` means no warning. -/
def check_strava_database_discrepancies (db : Db) : Db × Option (Nat × List Value) :=
  let activities_ids := get_ids_from_activities db
  let cached_ids := get_ids_from_cache false db
  let missing_cache := activities_ids.filter (fun v => !(decide (v ∈ cached_ids)))
  (db, if missing_cache.length ≠ 0 then some (missing_cache.length, missing_cache) else none)

/-- Outcome of one remote call: `err` models a raised exception, `ok` a returned
payload (which may itself be falsy/empty, encoded inside the payload type). -/
inductive Fetch (α : Type) where
  | err : Fetch α
  | ok : α → Fetch α
deriving DecidableEq

/-- The part of a detailed-activity payload this pipeline consumes: the embedded
`best_efforts` list (one name per effort) and the material the splits normalizer
bundles into its single serialized field. -/
structure Detail where
  best_efforts : List String
  splits_metric : String
deriving DecidableEq

/-- The remote Strava client, as an oracle.  `get_activities` is the listing
(`None`/empty when falsy); the per-id fetches may raise (`Fetch.err`).  A zones
payload is the list of its (zone_type, min, max, time_in_zone) bands — a payload
with zero zone types is `Fetch.ok []`.  A streams payload maps a series key to its
`data` list (an empty mapping is the falsy response).  `get_gears` stands for the
gear rows `Gear.process_gears` assembles from its remote calls. -/
structure Remote where
  get_activities : Option (List Row)
  get_detailed_activity : Value → Fetch (Option Detail)
  get_activity_zones : Value → Fetch (List (String × Int × Int × Int))
  get_streams_request : Value → Fetch (List (String × List Int))
  get_gears : Fetch (List Row)

/-- Observable side-effect trace of the orchestrator: the cache-claim write and the
three per-id remote fetches, in execution order. -/
inductive Event where
  | cacheClaim : Value → Event
  | fetchDetail : Value → Event
  | fetchZones : Value → Event
  | fetchStreams : Value → Event
deriving DecidableEq, Repr

/-- The activity id an event concerns. -/
def eventId : Event → Value
  | .cacheClaim v => v
  | .fetchDetail v => v
  | .fetchZones v => v
  | .fetchStreams v => v

/-- Is `e` a detail, zones or streams fetch for activity `v`? -/
def isFetchFor (v : Value) (e : Event) : Bool :=
  decide (e = .fetchDetail v) || decide (e = .fetchZones v) || decide (e = .fetchStreams v)

/-- Modelled from the spec: `Splits.process_splits` (src/src/models/splits.py is not
among the sources).  Per the spec it emits one row per activity, bundling all laps
into a single serialized field; the row is keyed by the activity id. -/
def process_splits (activity_id : Value) (d : Detail) : List Row :=
  [[("id", activity_id), ("splits_metric", Value.text d.splits_metric)]]

/-- Modelled from the spec: `BestEfforts.process_best_efforts`
(src/src/models/best_efforts.py is not among the sources).  One row per named effort
in the detail payload's embedded list, keyed (activity id, effort name); an absent
list yields zero rows. -/
def process_best_efforts (activity_id : Value) (efforts : List String) : List Row :=
  efforts.map (fun nm => [("id", activity_id), ("name", Value.text nm)])

/-- Modelled from the spec: `Zones.process_zones` (src/src/models/zones.py is not
among the sources).  One row per (zone_type, band) pair found in the payload; a
payload with zero zone types yields zero rows. -/
def process_zones (zones_data : List (String × Int × Int × Int)) (activity_id : Value) :
    List Row :=
  zones_data.map (fun z =>
    [("id", activity_id), ("zone_type", Value.text z.1), ("min_value", Value.int z.2.1),
      ("max_value", Value.int z.2.2.1), ("time_in_zone", Value.int z.2.2.2)])

/-- Python `json.dumps` on a list of numbers (element values beyond numbers are
irrelevant to every property considered here). -/
def jsonDumps (l : List Int) : String :=
  "[" ++ String.intercalate ", " (l.map toString) ++ "]"

/-- src/src/models/streams.py, the lookup
`response.get(key, {}).get("data", None)`: the series' data when the key is present,
`None` otherwise. -/
def respGetData (response : List (String × List Int)) (key : String) : Option (List Int) :=
  (response.find? (fun p => decide (p.fst = key))).map Prod.snd

/-- src/src/models/streams.py, the serialization
`json.dumps(stream_values) if stream_values else json.dumps([0])`: a missing series
(`None`) or an empty one (falsy) becomes the one-element placeholder `[0]`. -/
def serializeStream (v : Option (List Int)) : String :=
  match v with
  | some vs => if vs.isEmpty then jsonDumps [0] else jsonDumps vs
  | none => jsonDumps [0]

/-- The 8 known series keys requested from the remote
(src/src/models/streams.py, the `keys` list in `process_streams`). -/
def STREAM_KEYS : List String :=
  ["time", "distance", "latlng", "altitude", "velocity_smooth", "heartrate", "cadence", "watts"]

/-- src/src/models/streams.py, `Streams.process_streams`: builds `row_data` with the
activity id and each of the 8 serialized series, executes
`row_data["speed"] = row_data.pop("velocity_smooth", json.dumps([0]))`, and emits a
one-row DataFrame over the columns
id, time, distance, latlng, altitude, speed, heartrate, cadence, watts. -/
def process_streams (activity_id : Value) (response : List (String × List Int)) : List Row :=
  let row_data0 : Row :=
    ("id", activity_id) ::
      STREAM_KEYS.map (fun k => (k, Value.text (serializeStream (respGetData response k))))
  let vsm : Value :=
    match lookupCol row_data0 "velocity_smooth" with
    | some v => v
    | none => Value.text (jsonDumps [0])
  let row_data : Row :=
    (row_data0.filter (fun p => !(decide (p.fst = "velocity_smooth")))) ++ [("speed", vsm)]
  let columns := ["id", "time", "distance", "latlng", "altitude", "speed", "heartrate",
    "cadence", "watts"]
  [columns.filterMap (fun c => (lookupCol row_data c).map (fun v => (c, v)))]

/-- src/src/models/streams.py, `Streams.get_streams`: the request is attempted; a
raised exception is caught inside this function and yields an empty DataFrame, as
does a falsy response; otherwise the response is normalized by `process_streams`.
Also returns the fetch event (the request is attempted in every case). -/
def get_streams (r : Remote) (activity_id : Value) : List Row × List Event :=
  (match r.get_streams_request activity_id with
    | .err => []
    | .ok resp => if resp.isEmpty then [] else process_streams activity_id resp,
    [Event.fetchStreams activity_id])

/-- src/main.py, `process_individual_activity`: a single `try` block normalizes the
splits, fetches the zones, normalizes zones and best-efforts, fetches the streams
(`get_streams` guards itself), and then inserts the four DataFrames.  A raised
exception anywhere in the block — in particular from the zones fetch — jumps to the
`except`, which only logs: nothing after the raise point runs. -/
def process_individual_activity (r : Remote) (db : Db) (activity_id : Value) (d : Detail) :
    Db × List Event :=
  let splits_df := process_splits activity_id d
  match r.get_activity_zones activity_id with
  | .err => (db, [Event.fetchZones activity_id])
  | .ok zones_data =>
    let zones_df := process_zones zones_data activity_id
    let best_efforts_df := process_best_efforts activity_id d.best_efforts
    let streams := get_streams r activity_id
    let db1 := insertOk db splits_df "splits"
    let db2 := insertOk db1 zones_df "zones"
    let db3 := insertOk db2 best_efforts_df "best_efforts"
    let db4 := insertOk db3 streams.fst "streams"
    (db4, Event.fetchZones activity_id :: streams.snd)

/-- The body of the per-id `try` in src/main.py, `process_new_activities`: fetch the
detail; a raised exception is caught (loop continues), a falsy detail is skipped
(`continue`), otherwise `process_individual_activity` runs. -/
def processStep (r : Remote) (db : Db) (activity_id : Value) : Db × List Event :=
  match r.get_detailed_activity activity_id with
  | .err => (db, [Event.fetchDetail activity_id])
  | .ok none => (db, [Event.fetchDetail activity_id])
  | .ok (some d) =>
    let p := process_individual_activity r db activity_id d
    (p.fst, Event.fetchDetail activity_id :: p.snd)

/-- The `for activity_id in new_activity_ids` loop of src/main.py,
`process_new_activities`: for each id, first `update_cache` (committed), then the
guarded detail processing. -/
def processLoop (r : Remote) (db : Db) : List Value → Db × List Event
  | [] => (db, [])
  | activity_id :: rest =>
    let db1 := update_cache db activity_id
    let p := processStep r db1 activity_id
    let q := processLoop r p.fst rest
    (q.fst, Event.cacheClaim activity_id :: (p.snd ++ q.snd))

/-- src/main.py, `process_new_activities`: bulk-insert the new activities DataFrame,
then run the per-id loop. -/
def process_new_activities (r : Remote) (db : Db) (new_activity_ids : List Value)
    (new_activities_df : List Row) : Db × List Event :=
  processLoop r (insertOk db new_activities_df "activities") new_activity_ids

/-- src/main.py, `process_gear_data`: assembles the gear DataFrame from the remote
(`Gear.process_gears`, src/src/models/gear.py is not among the sources — modelled
from the spec as the oracle's `get_gears`; a raise propagates to main's `except`)
and inserts it into the gear table.  The `new_gear_df` filter only feeds logging. -/
def process_gear_data (r : Remote) (db : Db) : Fetch Db :=
  match r.get_gears with
  | .err => .err
  | .ok gear_df => .ok (insertOk db gear_df "gear")

/-- src/main.py, the pandas membership test behind
`~activities_df["id"].isin(cached_ids)` for one row. -/
def idInCache (row : Row) (cached : List Value) : Bool :=
  match lookupCol row "id" with
  | some v => decide (v ∈ cached)
  | none => false

/-- src/main.py, the novelty filter
`activities_df[~activities_df["id"].isin(cached_ids)]`: keep, in order, exactly the
rows whose id is not among the cached ids. -/
def filterNewActivities (df : List Row) (cached : List Value) : List Row :=
  df.filter (fun row => !(idInCache row cached))

/-- src/main.py, `new_activities_df["id"].tolist()`: the id column of a DataFrame. -/
def dfIds (df : List Row) : List Value :=
  df.filterMap (fun row => lookupCol row "id")

/-- Outcome of one top-level invocation of `main`: the final database, the event
trace, and how many times `check_strava_database_discrepancies` executed. -/
structure RunResult where
  db : Db
  events : List Event
  checks : Nat

/-- src/main.py, the `try`/`except`/`finally` part of `main`, reached once the
listing produced a non-empty DataFrame.  `norm` stands for
`Activity.process_activity_data` (src/src/models/activity.py is not among the
sources — modelled from the spec as an arbitrary per-run normalization of the
listing DataFrame).  The novelty filter runs on the cached ids; if there are new
ids, `process_new_activities` then `process_gear_data` run inside the `try` whose
`except` swallows any raise and whose `finally` always runs the reconciliation
check exactly once. -/
def mainBody (cacheReadFails : Bool) (norm : List Row → List Row) (r : Remote) (db : Db)
    (data : List Row) : RunResult :=
  let activities_df := norm data
  let cached_ids := get_ids_from_cache cacheReadFails db
  let new_activities_df := filterNewActivities activities_df cached_ids
  let new_activity_ids := dfIds new_activities_df
  if new_activity_ids.isEmpty then
    { db := db, events := [], checks := 1 }
  else
    let p := process_new_activities r db new_activity_ids new_activities_df
    match process_gear_data r p.fst with
    | .err => { db := p.fst, events := p.snd, checks := 1 }
    | .ok db2 => { db := db2, events := p.snd, checks := 1 }

/-- src/main.py, `main`.  Control flow follows the source: a falsy listing (`None`
or empty) logs and returns — before the `try`, so no reconciliation check runs; a
non-empty listing makes a non-empty DataFrame, so the `activities_df.empty` branch
(which does run the check) never fires; otherwise the `try` body runs
(`mainBody`). -/
def runMain (cacheReadFails : Bool) (norm : List Row → List Row) (r : Remote) (db : Db) :
    RunResult :=
  match r.get_activities with
  | none => { db := db, events := [], checks := 0 }
  | some data =>
    if data.isEmpty then { db := db, events := [], checks := 0 }
    else mainBody cacheReadFails norm r db data

/-- The `new_activity_ids` list `main` computes (empty when the listing is falsy):
the result of the novelty filter for one invocation. -/
def noveltyResult (cacheReadFails : Bool) (norm : List Row → List Row) (r : Remote)
    (db : Db) : List Value :=
  match r.get_activities with
  | none => []
  | some data =>
    if data.isEmpty then []
    else dfIds (filterNewActivities (norm data) (get_ids_from_cache cacheReadFails db))

/-- Rows of a table whose id column holds `v`. -/
def rowsWithId (tbl : Table) (v : Value) : List Row :=
  tbl.filter (fun r => decide (lookupCol r "id" = some v))

/-- Rows of a table with a given primary key (for table `t`). -/
def rowsWithKey (t : String) (tbl : Table) (k : List (Option Value)) : List Row :=
  tbl.filter (fun r => decide (rowKey t r = k))

/-! ## General helper lemmas about the store model -/

theorem setTable_get_same (db : Db) (t : String) (rows : Table) : setTable db t rows t = rows := by
  simp [setTable]

theorem setTable_get_other (db : Db) (t : String) (rows : Table) (t0 : String) (h : t0 ≠ t) :
    setTable db t rows t0 = db t0 := by
  simp [setTable, h]

theorem setTable_same (db : Db) (t : String) : setTable db t (db t) = db := by
  funext t0
  by_cases h : t0 = t <;> simp [setTable, h]

/-- How many rows of `tbl` carry the primary key `k` (for table `t`). -/
def countKey (t : String) (tbl : Table) (k : List (Option Value)) : Nat :=
  (rowsWithKey t tbl k).length

theorem countKey_append (t : String) (t1 t2 : Table) (k : List (Option Value)) :
    countKey t (t1 ++ t2) k = countKey t t1 k + countKey t t2 k := by
  simp [countKey, rowsWithKey, List.filter_append]

theorem countKey_eq_zero (t : String) (tbl : Table) (k : List (Option Value)) :
    countKey t tbl k = 0 ↔ ∀ r ∈ tbl, rowKey t r ≠ k := by
  simp [countKey, rowsWithKey, List.length_eq_zero, List.filter_eq_nil_iff]

theorem insertOrIgnoreRow_absent (t : String) (tbl : Table) (row : Row)
    (h : countKey t tbl (rowKey t row) = 0) :
    insertOrIgnoreRow t tbl row = tbl ++ [row] := by
  unfold insertOrIgnoreRow
  rw [if_neg]
  simp only [List.any_eq_true, decide_eq_true_eq, not_exists]
  intro r hr
  exact (countKey_eq_zero t tbl (rowKey t row)).mp h r hr.1 hr.2

theorem insertOrIgnoreRow_present (t : String) (tbl : Table) (row : Row)
    (h : 0 < countKey t tbl (rowKey t row)) :
    insertOrIgnoreRow t tbl row = tbl := by
  unfold insertOrIgnoreRow
  rw [if_pos]
  have hne : rowsWithKey t tbl (rowKey t row) ≠ [] := by
    intro he
    rw [countKey, he] at h
    simp at h
  obtain ⟨r, hr⟩ := List.exists_mem_of_ne_nil _ hne
  have hr2 := List.mem_filter.mp hr
  simp only [List.any_eq_true, decide_eq_true_eq]
  exact ⟨r, hr2.1, of_decide_eq_true hr2.2⟩

theorem insert_singleton (db : Db) (t : String) (row : Row) (ht : t ∈ ALLOWED_TABLES) :
    insert_dataframe_to_db db (some [row]) t
      = .ok (setTable db t (insertOrIgnoreRow t (db t) row), 1) := by
  simp [insert_dataframe_to_db, ht]

theorem insertOk_singleton (db : Db) (t : String) (row : Row) (ht : t ∈ ALLOWED_TABLES) :
    insertOk db [row] t = setTable db t (insertOrIgnoreRow t (db t) row) := by
  simp [insertOk, insert_singleton db t row ht]

theorem count_filter_eq {α : Type} [BEq α] [LawfulBEq α] (l : List α) (p : α → Bool) (a : α) :
    (l.filter p).count a = if p a = true then l.count a else 0 := by
  by_cases h : p a = true
  · simp only [h, if_true]
    exact List.count_filter h
  · simp only [h, if_false]
    exact List.count_eq_zero.mpr (fun hm => h ((List.mem_filter.mp hm).2))

theorem dfIds_filterNew (df : List Row) (C : List Value)
    (h : ∀ row ∈ df, (lookupCol row "id").isSome) :
    dfIds (filterNewActivities df C) = (dfIds df).filter (fun v => !(decide (v ∈ C))) := by
  induction df with
  | nil => rfl
  | cons r rest ih =>
    have hr := h r (by simp)
    obtain ⟨v, hv⟩ := Option.isSome_iff_exists.mp hr
    have hrest : ∀ row ∈ rest, (lookupCol row "id").isSome := fun row hm => h row (by simp [hm])
    have hic : idInCache r C = decide (v ∈ C) := by simp [idInCache, hv]
    by_cases hvc : v ∈ C
    · simp [filterNewActivities, dfIds, List.filter_cons, hic, hvc, hv] at *
      exact ih hrest
    · simp [filterNewActivities, dfIds, List.filter_cons, List.filterMap_cons, hic, hvc, hv] at *
      exact ih hrest

/-! ## Claim theorems: the upsert writer and the novelty filter -/

/-- C2: the novelty filter `activities_df[~activities_df["id"].isin(cached_ids)]`
returns exactly the subsequence of the listing whose ids are not among the cached
ids, preserving the listing's original order (it is a sublist, with exact
multiplicities); it is empty whenever every listed id is cached; and on listings
whose rows all carry an id it computes the order-preserving difference L − C.  It
is a pure function of its inputs (no side effects in the model). -/
theorem claim_C2 (df : List Row) (C : List Value) :
    List.Sublist (filterNewActivities df C) df
    ∧ (∀ row, (filterNewActivities df C).count row
        = if idInCache row C = true then 0 else df.count row)
    ∧ (∀ row ∈ filterNewActivities df C, row ∈ df ∧ idInCache row C = false)
    ∧ (∀ row ∈ df, idInCache row C = false → row ∈ filterNewActivities df C)
    ∧ ((∀ row ∈ df, idInCache row C = true) → filterNewActivities df C = [])
    ∧ ((∀ row ∈ df, (lookupCol row "id").isSome) →
        dfIds (filterNewActivities df C) = (dfIds df).filter (fun v => !(decide (v ∈ C)))) := by
  refine ⟨List.filter_sublist df, ?_, ?_, ?_, ?_, dfIds_filterNew df C⟩
  · intro row
    rw [filterNewActivities, count_filter_eq]
    by_cases h : idInCache row C = true <;> simp [h]
  · intro row hm
    have h2 := List.mem_filter.mp hm
    refine ⟨h2.1, ?_⟩
    have := h2.2
    simpa using this
  · intro row hm h
    exact List.mem_filter.mpr ⟨hm, by simp [h]⟩
  · intro hall
    rw [filterNewActivities, List.filter_eq_nil_iff]
    intro row hm
    simp [hall row hm]

def dfW : List Row := [[("id", Value.int 1)], [("id", Value.int 2)]]

theorem claim_C2_witness :
    (∀ row ∈ dfW, (lookupCol row "id").isSome)
    ∧ dfIds (filterNewActivities dfW [Value.int 1]) = [Value.int 2] := by
  refine ⟨by decide, ?_⟩
  rw [(claim_C2 dfW [Value.int 1]).2.2.2.2.2 (by decide)]
  decide

/-- C6: the upsert writer rejects any table name outside the fixed allow-list with
the `ValueError` configuration error (and only such names: for an allow-listed name
no call errors), before executing anything — an errored call returns the store as
it was with no insert performed; and for an allow-listed table an absent (`None`)
or empty DataFrame is a no-op: no error and zero insert statements executed. -/
theorem claim_C6 (db : Db) (df : Option (List Row)) (t : String) :
    ((∃ e, insert_dataframe_to_db db df t = .error e) ↔ t ∉ ALLOWED_TABLES)
    ∧ (t ∉ ALLOWED_TABLES →
        insert_dataframe_to_db db df t = .error ("Invalid table name: " ++ t))
    ∧ (t ∈ ALLOWED_TABLES → insert_dataframe_to_db db none t = .ok (db, 0))
    ∧ (t ∈ ALLOWED_TABLES → insert_dataframe_to_db db (some []) t = .ok (db, 0)) := by
  by_cases h : t ∈ ALLOWED_TABLES
  · refine ⟨?_, fun hn => absurd h hn, fun _ => ?_, fun _ => ?_⟩
    · constructor
      · rintro ⟨e, he⟩
        cases df with
        | none => simp [insert_dataframe_to_db, h] at he
        | some rows =>
          by_cases hr : rows.isEmpty <;> simp [insert_dataframe_to_db, h, hr] at he
      · intro hn
        exact absurd h hn
    · simp [insert_dataframe_to_db, h]
    · simp [insert_dataframe_to_db, h]
  · have he : insert_dataframe_to_db db df t = .error ("Invalid table name: " ++ t) := by
      simp [insert_dataframe_to_db, h]
    exact ⟨⟨fun _ => h, fun _ => ⟨_, he⟩⟩, fun _ => he, fun ha => absurd ha h,
      fun ha => absurd ha h⟩

theorem claim_C6_witness :
    ("bogus" ∉ ALLOWED_TABLES)
    ∧ insert_dataframe_to_db emptyDb (some [[("id", Value.int 1)]]) "bogus"
        = .error ("Invalid table name: " ++ "bogus") := by
  refine ⟨by decide, ?_⟩
  exact (claim_C6 emptyDb (some [[("id", Value.int 1)]]) "bogus").2.1 (by decide)

def zonesRowA : Row :=
  [("id", Value.int 7), ("zone_type", Value.text "heartrate"), ("min_value", Value.int 0),
    ("max_value", Value.int 120), ("time_in_zone", Value.int 300)]

def zonesRowB : Row :=
  [("id", Value.int 7), ("zone_type", Value.text "power"), ("min_value", Value.int 0),
    ("max_value", Value.int 120), ("time_in_zone", Value.int 300)]

/-- C5: the upsert writer inserts a row iff no row with the same primary key exists
in the target allow-listed table — a key-absent row is appended (count becomes 1), a
key-present row is silently skipped with no update and no error (the store is
returned unchanged); inserting the same row twice leaves exactly one row with its
key; and two zones rows for the same activity id with different `zone_type` are both
inserted. -/
theorem claim_C5 (db : Db) (t : String) (row : Row) (ht : t ∈ ALLOWED_TABLES) :
    (countKey t (db t) (rowKey t row) = 0 →
      insert_dataframe_to_db db (some [row]) t = .ok (setTable db t (db t ++ [row]), 1)
      ∧ countKey t ((insertOk db [row] t) t) (rowKey t row) = 1)
    ∧ (0 < countKey t (db t) (rowKey t row) →
      insert_dataframe_to_db db (some [row]) t = .ok (db, 1))
    ∧ countKey t ((insertOk (insertOk db [row] t) [row] t) t) (rowKey t row)
        = max (countKey t (db t) (rowKey t row)) 1
    ∧ (insertOk (insertOk emptyDb [zonesRowA] "zones") [zonesRowB] "zones") "zones"
        = [zonesRowA, zonesRowB]
    ∧ (insertOk (insertOk emptyDb [zonesRowA] "zones") [zonesRowA] "zones") "zones"
        = [zonesRowA] := by
  have hkey1 : countKey t [row] (rowKey t row) = 1 := by
    simp [countKey, rowsWithKey]
  refine ⟨?_, ?_, ?_, by decide, by decide⟩
  · intro h0
    constructor
    · rw [insert_singleton db t row ht, insertOrIgnoreRow_absent t (db t) row h0]
    · rw [insertOk_singleton db t row ht, setTable_get_same,
        insertOrIgnoreRow_absent t (db t) row h0, countKey_append, h0, hkey1]
  · intro hpos
    rw [insert_singleton db t row ht, insertOrIgnoreRow_present t (db t) row hpos,
      setTable_same]
  · by_cases h0 : countKey t (db t) (rowKey t row) = 0
    · have h1 : (insertOk db [row] t) t = db t ++ [row] := by
        rw [insertOk_singleton db t row ht, setTable_get_same,
          insertOrIgnoreRow_absent t (db t) row h0]
      have hc1 : countKey t ((insertOk db [row] t) t) (rowKey t row) = 1 := by
        rw [h1, countKey_append, h0, hkey1]
      rw [insertOk_singleton (insertOk db [row] t) t row ht, setTable_get_same,
        insertOrIgnoreRow_present t _ row (by rw [hc1]; exact Nat.one_pos), hc1, h0]
      decide
    · have hpos : 0 < countKey t (db t) (rowKey t row) := Nat.pos_of_ne_zero h0
      have h1 : insertOk db [row] t = db := by
        rw [insertOk_singleton db t row ht, insertOrIgnoreRow_present t (db t) row hpos,
          setTable_same]
      rw [h1, h1]
      exact (Nat.max_eq_left hpos).symm

theorem claim_C5_witness :
    ("streams" ∈ ALLOWED_TABLES
      ∧ countKey "streams" (emptyDb "streams") (rowKey "streams" [("id", Value.int 5)]) = 0)
    ∧ insert_dataframe_to_db emptyDb (some [[("id", Value.int 5)]]) "streams"
        = .ok (setTable emptyDb "streams" (emptyDb "streams" ++ [[("id", Value.int 5)]]), 1) := by
  refine ⟨⟨by decide, by decide⟩, ?_⟩
  exact ((claim_C5 emptyDb "streams" [("id", Value.int 5)] (by decide)).1 (by decide)).1

def dbDisc : Db :=
  setTable (setTable emptyDb "activities"
      [[("id", Value.int 1)], [("id", Value.int 2)], [("id", Value.int 3)]])
    "cache" [[("id", Value.int 1)], [("id", Value.int 2)]]

/-- C7: the reconciliation checker mutates nothing (its two queries are `SELECT`s);
it warns iff some activities id is missing from the cache; the warning carries
exactly the activities ids not in the cache ids, in activities order and with exact
multiplicities, together with their count; and on activities ids {1,2,3} with cache
ids {1,2} it reports exactly one discrepancy, id 3. -/
theorem claim_C7 (db : Db) :
    (check_strava_database_discrepancies db).fst = db
    ∧ ((check_strava_database_discrepancies db).snd = none ↔
        ∀ v ∈ get_ids_from_activities db, v ∈ get_ids_from_cache false db)
    ∧ (∀ n ids, (check_strava_database_discrepancies db).snd = some (n, ids) →
        n = ids.length ∧ ids ≠ []
        ∧ List.Sublist ids (get_ids_from_activities db)
        ∧ (∀ v, v ∈ ids ↔ v ∈ get_ids_from_activities db ∧ v ∉ get_ids_from_cache false db)
        ∧ ∀ v, ids.count v =
            if v ∈ get_ids_from_cache false db then 0
            else (get_ids_from_activities db).count v)
    ∧ (check_strava_database_discrepancies dbDisc).snd = some (1, [Value.int 3]) := by
  obtain ⟨m, hm, hsnd⟩ : ∃ m : List Value,
      m = (get_ids_from_activities db).filter
        (fun v => !(decide (v ∈ get_ids_from_cache false db)))
      ∧ (check_strava_database_discrepancies db).snd
        = if m.length ≠ 0 then some (m.length, m) else none := ⟨_, rfl, rfl⟩
  refine ⟨rfl, ?_, ?_, by decide⟩
  · rw [hsnd]
    by_cases h0 : m.length ≠ 0
    · rw [if_pos h0]
      constructor
      · intro h
        exact absurd h (Option.some_ne_none _)
      · intro hall
        exfalso
        apply h0
        rw [hm, List.length_eq_zero, List.filter_eq_nil_iff]
        intro v hv
        simp [hall v hv]
    · rw [if_neg h0]
      have hml : m = [] := List.length_eq_zero.mp (not_not.mp h0)
      constructor
      · intro _ v hv
        by_contra hnc
        have hv2 : v ∈ m := by
          rw [hm]
          exact List.mem_filter.mpr ⟨hv, by simp [hnc]⟩
        rw [hml] at hv2
        exact List.not_mem_nil v hv2
      · intro _
        rfl
  · intro n ids hsome
    rw [hsnd] at hsome
    by_cases h0 : m.length ≠ 0
    · rw [if_pos h0] at hsome
      obtain ⟨hn, hids⟩ := Prod.mk.inj (Option.some.inj hsome)
      subst hids
      subst hn
      refine ⟨rfl, ?_, ?_, ?_, ?_⟩
      · intro he
        exact h0 (by rw [he]; rfl)
      · rw [hm]
        exact List.filter_sublist _
      · intro v
        rw [hm, List.mem_filter]
        simp
      · intro v
        rw [hm, count_filter_eq]
        by_cases hv : v ∈ get_ids_from_cache false db <;> simp [hv]
    · rw [if_neg h0] at hsome
      exact absurd hsome.symm (Option.some_ne_none _)

theorem claim_C7_witness :
    (check_strava_database_discrepancies dbDisc).snd = some (1, [Value.int 3])
    ∧ 1 = [Value.int 3].length
    ∧ ([Value.int 3] : List Value) ≠ []
    ∧ List.Sublist [Value.int 3] (get_ids_from_activities dbDisc)
    ∧ (∀ v, v ∈ ([Value.int 3] : List Value) ↔
        v ∈ get_ids_from_activities dbDisc ∧ v ∉ get_ids_from_cache false dbDisc)
    ∧ ∀ v, ([Value.int 3] : List Value).count v =
        if v ∈ get_ids_from_cache false dbDisc then 0
        else (get_ids_from_activities dbDisc).count v := by
  refine ⟨by decide, ?_⟩
  exact (claim_C7 dbDisc).2.2.1 1 [Value.int 3] (by decide)

/-! ## Streams normalization (C8) -/

theorem process_streams_row_eq (v : Value) (resp : List (String × List Int)) :
    process_streams v resp =
      [[("id", v),
        ("time", Value.text (serializeStream (respGetData resp "time"))),
        ("distance", Value.text (serializeStream (respGetData resp "distance"))),
        ("latlng", Value.text (serializeStream (respGetData resp "latlng"))),
        ("altitude", Value.text (serializeStream (respGetData resp "altitude"))),
        ("speed", Value.text (serializeStream (respGetData resp "velocity_smooth"))),
        ("heartrate", Value.text (serializeStream (respGetData resp "heartrate"))),
        ("cadence", Value.text (serializeStream (respGetData resp "cadence"))),
        ("watts", Value.text (serializeStream (respGetData resp "watts")))]] := rfl

/-- C8: each of the 8 known series keys that is missing from the streams payload is
serialized as the one-element placeholder array `[0]` (so never an empty array or
null); the remote's `velocity_smooth` series is emitted under the `speed` column and
no `velocity_smooth` column survives; in particular a payload missing the `watts`
series yields a row whose `watts` field is the JSON text `[0]`. -/
theorem claim_C8 (v : Value) (resp : List (String × List Int)) (row : Row)
    (hrow : row ∈ process_streams v resp) :
    (respGetData resp "watts" = none →
      lookupCol row "watts" = some (Value.text (jsonDumps [0])))
    ∧ lookupCol row "speed"
        = some (Value.text (serializeStream (respGetData resp "velocity_smooth")))
    ∧ lookupCol row "velocity_smooth" = none
    ∧ (∀ k ∈ (["time", "distance", "latlng", "altitude", "heartrate", "cadence",
        "watts"] : List String),
        respGetData resp k = none → lookupCol row k = some (Value.text (jsonDumps [0])))
    ∧ jsonDumps [0] = "[0]" := by
  have hr := List.mem_singleton.mp (process_streams_row_eq v resp ▸ hrow)
  refine ⟨?_, ?_, ?_, ?_, rfl⟩
  · intro h
    rw [hr]
    show some (Value.text (serializeStream (respGetData resp "watts"))) = _
    rw [h]
    rfl
  · rw [hr]
    rfl
  · rw [hr]
    rfl
  · intro k hk h
    have hfield : lookupCol row k
        = some (Value.text (serializeStream (respGetData resp k))) := by
      rw [hr]
      fin_cases hk <;> rfl
    rw [hfield, h]
    rfl

def respW : List (String × List Int) := [("time", [1, 2]), ("velocity_smooth", [3])]

def rowW : Row :=
  [("id", Value.int 9), ("time", Value.text "[1, 2]"), ("distance", Value.text "[0]"),
    ("latlng", Value.text "[0]"), ("altitude", Value.text "[0]"),
    ("speed", Value.text "[3]"), ("heartrate", Value.text "[0]"),
    ("cadence", Value.text "[0]"), ("watts", Value.text "[0]")]

theorem claim_C8_witness :
    (rowW ∈ process_streams (Value.int 9) respW ∧ respGetData respW "watts" = none)
    ∧ lookupCol rowW "watts" = some (Value.text (jsonDumps [0])) := by
  refine ⟨⟨by decide, by decide⟩, ?_⟩
  exact (claim_C8 (Value.int 9) respW rowW (by decide)).1 (by decide)

/-! ## Orchestrator-level helper lemmas -/

theorem insertOk_nil (db : Db) (t : String) : insertOk db [] t = db := by
  unfold insertOk insert_dataframe_to_db
  by_cases ht : t ∈ ALLOWED_TABLES <;> simp [ht]

theorem insertOk_get_other (db : Db) (rows : List Row) (t : String) (t0 : String)
    (h : t0 ≠ t) : (insertOk db rows t) t0 = db t0 := by
  unfold insertOk insert_dataframe_to_db
  by_cases ht : t ∈ ALLOWED_TABLES
  · by_cases hr : rows.isEmpty <;> simp [ht, hr, setTable_get_other _ _ _ _ h]
  · simp [ht]

theorem runMain_eq_body (cf : Bool) (norm : List Row → List Row) (r : Remote) (db : Db)
    (data : List Row) (hl : r.get_activities = some data) (hne : data ≠ []) :
    runMain cf norm r db = mainBody cf norm r db data := by
  have hie : data.isEmpty = false := by
    cases data with
    | nil => exact absurd rfl hne
    | cons a as => rfl
  simp [runMain, hl, hie]

theorem mainBody_checks (cf : Bool) (norm : List Row → List Row) (r : Remote) (db : Db)
    (data : List Row) : (mainBody cf norm r db data).checks = 1 := by
  unfold mainBody
  by_cases hni : (dfIds (filterNewActivities (norm data)
      (get_ids_from_cache cf db))).isEmpty
  · simp [hni]
  · simp only [hni, if_false]
    cases process_gear_data r (process_new_activities r db
        (dfIds (filterNewActivities (norm data) (get_ids_from_cache cf db)))
        (filterNewActivities (norm data) (get_ids_from_cache cf db))).fst <;> rfl

theorem processLoop_claims (r : Remote) (db : Db) (ids : List Value) (v : Value)
    (hv : v ∈ ids) : Event.cacheClaim v ∈ (processLoop r db ids).snd := by
  induction ids generalizing db with
  | nil => cases hv
  | cons a rest ih =>
    rcases List.mem_cons.mp hv with h | h
    · subst h
      simp [processLoop]
    · simp only [processLoop, List.mem_cons, List.mem_append]
      right
      right
      exact ih _ h

/-! ## Main control flow: the reconciliation check (C4) -/

def remoteNone : Remote :=
  { get_activities := none, get_detailed_activity := fun _ => .err,
    get_activity_zones := fun _ => .err, get_streams_request := fun _ => .err,
    get_gears := .err }

/-- C4 counterexample: when the remote listing fetch yields no data, `main` logs and
returns before the `try`/`finally`, so the reconciliation check executes zero times
in that invocation — not exactly once as the claim states. -/
theorem claim_C4_counterexample :
    remoteNone.get_activities = none
    ∧ (runMain false (fun rows => rows) remoteNone emptyDb).checks = 0
    ∧ ¬ (runMain false (fun rows => rows) remoteNone emptyDb).checks = 1 := by
  exact ⟨rfl, rfl, by decide⟩

/-- C4 (amended): the reconciliation check executes exactly once per invocation in
which the listing fetch returns a non-empty listing — then the `finally` block
guarantees it regardless of any raised or failed detail/zones/streams/gear
processing and regardless of the novelty outcome; but when the listing fetch yields
no data (`None` or an empty listing), `main` returns early and the check does not
execute. -/
theorem claim_C4_thm (cf : Bool) (norm : List Row → List Row) (r : Remote) (db : Db) :
    (r.get_activities = none → (runMain cf norm r db).checks = 0)
    ∧ (r.get_activities = some [] → (runMain cf norm r db).checks = 0)
    ∧ (∀ data, r.get_activities = some data → data ≠ [] →
        (runMain cf norm r db).checks = 1) := by
  refine ⟨?_, ?_, ?_⟩
  · intro h
    simp [runMain, h]
  · intro h
    simp [runMain, h]
  · intro data hl hne
    rw [runMain_eq_body cf norm r db data hl hne]
    exact mainBody_checks cf norm r db data

def rowOne : Row := [("id", Value.int 1)]

def remoteErrData : Remote :=
  { get_activities := some [rowOne], get_detailed_activity := fun _ => .err,
    get_activity_zones := fun _ => .err, get_streams_request := fun _ => .err,
    get_gears := .err }

theorem claim_C4_thm_witness :
    (remoteErrData.get_activities = some [rowOne] ∧ ([rowOne] : List Row) ≠ [])
    ∧ (runMain false (fun rows => rows) remoteErrData emptyDb).checks = 1 := by
  refine ⟨⟨rfl, by decide⟩, ?_⟩
  exact (claim_C4_thm false (fun rows => rows) remoteErrData emptyDb).2.2 [rowOne] rfl
    (by decide)

/-! ## Per-activity detail processing: zones versus streams failure (C3) -/

def detailX : Detail := { best_efforts := ["pr1"], splits_metric := "laps" }

def remoteZonesRaise : Remote :=
  { get_activities := some [rowOne],
    get_detailed_activity := fun _ => .ok (some detailX),
    get_activity_zones := fun _ => .err,
    get_streams_request := fun _ => .ok [("watts", [5])],
    get_gears := .ok [] }

/-- C3 counterexample: with the detail fetch succeeded, the zones fetch raising and
a streams fetch that would succeed, `process_individual_activity` never attempts the
streams fetch (its single `try` block aborts at the zones raise) and the sibling
splits and best-efforts rows are not attempted either — contradicting the claim that
a zones failure does not prevent the streams attempt and that siblings are still
inserted. -/
theorem claim_C3_counterexample :
    remoteZonesRaise.get_activity_zones (Value.int 1) = .err
    ∧ remoteZonesRaise.get_streams_request (Value.int 1) = .ok [("watts", [5])]
    ∧ Event.fetchStreams (Value.int 1) ∉
        (process_individual_activity remoteZonesRaise emptyDb (Value.int 1) detailX).snd
    ∧ (process_individual_activity remoteZonesRaise emptyDb (Value.int 1) detailX).fst
        "best_efforts" = []
    ∧ (process_individual_activity remoteZonesRaise emptyDb (Value.int 1) detailX).fst
        "splits" = [] := by
  decide

/-- C3 (amended): the two directions are asymmetric.  A streams fetch failure is
caught inside `get_streams` and does not prevent the siblings: the splits, zones and
best-efforts inserts are all still executed while the streams table is left
untouched.  But a zones fetch failure aborts the single `try` block of
`process_individual_activity`: the streams fetch is never attempted and none of the
four entity inserts runs — the store is returned unchanged. -/
theorem claim_C3_thm (r : Remote) (db : Db) (v : Value) (d : Detail) :
    (r.get_activity_zones v = .err →
      (process_individual_activity r db v d).fst = db
      ∧ (process_individual_activity r db v d).snd = [Event.fetchZones v]
      ∧ Event.fetchStreams v ∉ (process_individual_activity r db v d).snd)
    ∧ (∀ z, r.get_activity_zones v = .ok z → r.get_streams_request v = .err →
      (process_individual_activity r db v d).fst
        = insertOk (insertOk (insertOk db (process_splits v d) "splits")
            (process_zones z v) "zones") (process_best_efforts v d.best_efforts)
            "best_efforts"
      ∧ (process_individual_activity r db v d).fst "streams" = db "streams"
      ∧ Event.fetchStreams v ∈ (process_individual_activity r db v d).snd) := by
  constructor
  · intro hz
    refine ⟨?_, ?_, ?_⟩ <;> simp [process_individual_activity, hz]
  · intro z hz hs
    have hstep : process_individual_activity r db v d
        = (insertOk (insertOk (insertOk (insertOk db (process_splits v d) "splits")
            (process_zones z v) "zones") (process_best_efforts v d.best_efforts)
            "best_efforts") [] "streams",
          [Event.fetchZones v, Event.fetchStreams v]) := by
      simp [process_individual_activity, hz, get_streams, hs]
    rw [hstep, insertOk_nil]
    refine ⟨rfl, ?_, by simp⟩
    dsimp only
    rw [insertOk_get_other _ _ "best_efforts" "streams" (by decide),
      insertOk_get_other _ _ "zones" "streams" (by decide),
      insertOk_get_other _ _ "splits" "streams" (by decide)]

def remoteStreamsRaise : Remote :=
  { get_activities := some [rowOne],
    get_detailed_activity := fun _ => .ok (some detailX),
    get_activity_zones := fun _ => .ok [("heartrate", 0, 120, 300)],
    get_streams_request := fun _ => .err,
    get_gears := .ok [] }

theorem claim_C3_thm_witness :
    (remoteStreamsRaise.get_activity_zones (Value.int 1) = .ok [("heartrate", 0, 120, 300)]
      ∧ remoteStreamsRaise.get_streams_request (Value.int 1) = .err)
    ∧ ((process_individual_activity remoteStreamsRaise emptyDb (Value.int 1) detailX).fst
        = insertOk (insertOk (insertOk emptyDb (process_splits (Value.int 1) detailX)
            "splits") (process_zones [("heartrate", 0, 120, 300)] (Value.int 1)) "zones")
            (process_best_efforts (Value.int 1) detailX.best_efforts) "best_efforts"
      ∧ (process_individual_activity remoteStreamsRaise emptyDb (Value.int 1) detailX).fst
          "streams" = emptyDb "streams"
      ∧ Event.fetchStreams (Value.int 1) ∈
          (process_individual_activity remoteStreamsRaise emptyDb (Value.int 1)
            detailX).snd) := by
  refine ⟨⟨rfl, rfl⟩, ?_⟩
  exact (claim_C3_thm remoteStreamsRaise emptyDb (Value.int 1) detailX).2
    [("heartrate", 0, 120, 300)] rfl rfl

/-! ## Swallowed SQLite errors and the novelty fallout (C10) -/

theorem filterNew_nil_cache (df : List Row) : filterNewActivities df [] = df := by
  unfold filterNewActivities
  apply List.filter_eq_self.mpr
  intro row hrow
  unfold idInCache
  cases lookupCol row "id" <;> simp

/-- C10: `execute_query` catches any SQLite-level error and returns the empty list
instead of propagating it; hence a failing cache read makes `get_ids_from_cache`
return `[]`, and a run whose listing fetch works treats every listed activity as
novel: the novelty filter returns the ids of the whole processed DataFrame, every
one of them is cache-claimed and reprocessed, and the run completes — the
reconciliation check still executes — rather than aborting. -/
theorem claim_C10 (rows : List Value) (db : Db) (norm : List Row → List Row) (r : Remote)
    (data : List Row) (hl : r.get_activities = some data) (hne : data ≠ []) :
    execute_query_select true rows = []
    ∧ get_ids_from_cache true db = []
    ∧ noveltyResult true norm r db = dfIds (norm data)
    ∧ (runMain true norm r db).checks = 1
    ∧ (∀ v ∈ dfIds (norm data), Event.cacheClaim v ∈ (runMain true norm r db).events) := by
  have hie : data.isEmpty = false := by
    cases data with
    | nil => exact absurd rfl hne
    | cons a as => rfl
  have hc : get_ids_from_cache true db = [] := rfl
  refine ⟨rfl, rfl, ?_, ?_, ?_⟩
  · simp [noveltyResult, hl, hie, hc, filterNew_nil_cache]
  · rw [runMain_eq_body true norm r db data hl hne]
    exact mainBody_checks true norm r db data
  · intro v hv
    rw [runMain_eq_body true norm r db data hl hne]
    simp only [mainBody, hc, filterNew_nil_cache]
    cases hdf : dfIds (norm data) with
    | nil =>
      rw [hdf] at hv
      cases hv
    | cons a as =>
      rw [hdf] at hv
      simp only [List.isEmpty_cons, Bool.false_eq_true, if_false]
      cases process_gear_data r (process_new_activities r db (a :: as) (norm data)).fst with
      | err => exact processLoop_claims r _ (a :: as) v hv
      | ok db2 => exact processLoop_claims r _ (a :: as) v hv

theorem claim_C10_witness :
    (remoteErrData.get_activities = some [rowOne] ∧ ([rowOne] : List Row) ≠ [])
    ∧ noveltyResult true (fun rows => rows) remoteErrData emptyDb
        = dfIds ((fun rows => rows) [rowOne]) := by
  refine ⟨⟨rfl, by decide⟩, ?_⟩
  exact (claim_C10 [] emptyDb (fun rows => rows) remoteErrData [rowOne] rfl
    (by decide)).2.2.1

/-! ## Per-step structure of the orchestrator loop (towards C1 and C9) -/

theorem process_new_activities_def (r : Remote) (db : Db) (ids : List Value)
    (df : List Row) :
    process_new_activities r db ids df = processLoop r (insertOk db df "activities") ids := rfl

theorem pia_events (r : Remote) (db : Db) (j : Value) (d : Detail) :
    (process_individual_activity r db j d).snd = [Event.fetchZones j]
    ∨ (process_individual_activity r db j d).snd
        = [Event.fetchZones j, Event.fetchStreams j] := by
  unfold process_individual_activity
  cases r.get_activity_zones j with
  | err => left; rfl
  | ok z => right; rfl

theorem processStep_events (r : Remote) (db : Db) (j : Value) :
    (processStep r db j).snd = [Event.fetchDetail j]
    ∨ (processStep r db j).snd = [Event.fetchDetail j, Event.fetchZones j]
    ∨ (processStep r db j).snd
        = [Event.fetchDetail j, Event.fetchZones j, Event.fetchStreams j] := by
  unfold processStep
  cases r.get_detailed_activity j with
  | err => left; rfl
  | ok od =>
    cases od with
    | none => left; rfl
    | some d =>
      dsimp only
      rcases pia_events r db j d with h | h <;> rw [h]
      · right; left; rfl
      · right; right; rfl

theorem processStep_eventId (r : Remote) (db : Db) (j : Value) :
    ∀ e ∈ (processStep r db j).snd, eventId e = j := by
  intro e he
  rcases processStep_events r db j with h | h | h <;> rw [h] at he <;>
    simp only [List.mem_cons, List.not_mem_nil, or_false] at he
  · subst he
    rfl
  · rcases he with rfl | rfl <;> rfl
  · rcases he with rfl | rfl | rfl <;> rfl

theorem isFetchFor_eventId (v : Value) (e : Event) (h : isFetchFor v e = true) :
    eventId e = v := by
  unfold isFetchFor at h
  simp only [Bool.or_eq_true, decide_eq_true_eq] at h
  rcases h with (h | h) | h <;> subst h <;> rfl

theorem isFetchFor_claim (v a : Value) : isFetchFor v (Event.cacheClaim a) = false := by
  simp [isFetchFor]

theorem update_cache_get_other (db : Db) (w : Value) (t0 : String) (h : t0 ≠ "cache") :
    (update_cache db w) t0 = db t0 :=
  setTable_get_other _ _ _ _ h

theorem cache_key_eq (r : Row) (w : Value) :
    rowKey "cache" r = rowKey "cache" [("id", w)] ↔ lookupCol r "id" = some w := by
  show [lookupCol r "id"] = [some w] ↔ _
  simp

theorem update_cache_mem (db : Db) (w v : Value)
    (h : v ∈ selectIds (db "cache") "id") :
    v ∈ selectIds ((update_cache db w) "cache") "id" := by
  unfold update_cache
  rw [setTable_get_same]
  unfold selectIds at h ⊢
  rw [List.filterMap_append]
  rcases List.mem_filterMap.mp h with ⟨r, hr, hlr⟩
  by_cases hkey : rowKey "cache" r = rowKey "cache" [("id", w)]
  · have hw : lookupCol r "id" = some w := (cache_key_eq r w).mp hkey
    have hvw : v = w := by
      rw [hw] at hlr
      exact (Option.some.inj hlr).symm
    apply List.mem_append_right
    apply List.mem_filterMap.mpr
    refine ⟨[("id", w)], List.mem_singleton_self _, ?_⟩
    rw [hvw]
    rfl
  · apply List.mem_append_left
    exact List.mem_filterMap.mpr ⟨r, List.mem_filter.mpr ⟨hr, by simp [hkey]⟩, hlr⟩

theorem update_cache_mem_self (db : Db) (w : Value) :
    w ∈ selectIds ((update_cache db w) "cache") "id" := by
  unfold update_cache
  rw [setTable_get_same]
  unfold selectIds
  rw [List.filterMap_append]
  apply List.mem_append_right
  apply List.mem_filterMap.mpr
  exact ⟨[("id", w)], List.mem_singleton_self _, rfl⟩

theorem rowsWithId_foldl (t : String) (tbl : Table) (rows : List Row) (v : Value)
    (h : ∀ row ∈ rows, lookupCol row "id" ≠ some v) :
    rowsWithId (rows.foldl (insertOrIgnoreRow t) tbl) v = rowsWithId tbl v := by
  induction rows generalizing tbl with
  | nil => rfl
  | cons a as ih =>
    rw [List.foldl_cons, ih _ (fun row hr => h row (List.mem_cons_of_mem a hr))]
    unfold insertOrIgnoreRow
    split
    · rfl
    · unfold rowsWithId
      rw [List.filter_append]
      have ha := h a (List.mem_cons_self a as)
      have hnil : List.filter (fun r => decide (lookupCol r "id" = some v)) [a] = [] := by
        simp [ha]
      rw [hnil, List.append_nil]

theorem insertOk_rowsWithId (db : Db) (rows : List Row) (t : String) (t0 : String)
    (v : Value) (h : ∀ row ∈ rows, lookupCol row "id" ≠ some v) :
    rowsWithId ((insertOk db rows t) t0) v = rowsWithId (db t0) v := by
  by_cases ht0 : t0 = t
  · subst ht0
    unfold insertOk insert_dataframe_to_db
    by_cases ht : t0 ∈ ALLOWED_TABLES
    · by_cases hr : rows.isEmpty
      · simp [ht, hr]
      · simp only [ht, if_true, hr, Bool.false_eq_true, if_false]
        rw [setTable_get_same]
        exact rowsWithId_foldl t0 (db t0) rows v h
    · simp [ht]
  · rw [insertOk_get_other db rows t t0 ht0]

theorem stamp_ne {rows : List Row} {j v : Value}
    (hstamp : ∀ row ∈ rows, lookupCol row "id" = some j) (hne : v ≠ j) :
    ∀ row ∈ rows, lookupCol row "id" ≠ some v := by
  intro row hr hv
  rw [hstamp row hr] at hv
  exact hne (Option.some.inj hv).symm

theorem process_splits_id (v : Value) (d : Detail) :
    ∀ row ∈ process_splits v d, lookupCol row "id" = some v := by
  intro row hr
  rw [List.mem_singleton.mp hr]
  rfl

theorem process_zones_id (z : List (String × Int × Int × Int)) (v : Value) :
    ∀ row ∈ process_zones z v, lookupCol row "id" = some v := by
  intro row hr
  rcases List.mem_map.mp hr with ⟨zz, _, hzz⟩
  rw [← hzz]
  rfl

theorem process_best_efforts_id (v : Value) (efforts : List String) :
    ∀ row ∈ process_best_efforts v efforts, lookupCol row "id" = some v := by
  intro row hr
  rcases List.mem_map.mp hr with ⟨nm, _, hnm⟩
  rw [← hnm]
  rfl

theorem process_streams_id (v : Value) (resp : List (String × List Int)) :
    ∀ row ∈ process_streams v resp, lookupCol row "id" = some v := by
  intro row hr
  rw [process_streams_row_eq] at hr
  rw [List.mem_singleton.mp hr]
  rfl

theorem get_streams_id (r : Remote) (v : Value) :
    ∀ row ∈ (get_streams r v).fst, lookupCol row "id" = some v := by
  intro row hr
  unfold get_streams at hr
  dsimp only at hr
  rcases hrr : r.get_streams_request v with _ | resp <;> rw [hrr] at hr <;> dsimp only at hr
  · cases hr
  · by_cases hre : resp.isEmpty
    · rw [if_pos hre] at hr
      cases hr
    · rw [if_neg hre] at hr
      exact process_streams_id v resp row hr

theorem pia_cache (r : Remote) (db : Db) (j : Value) (d : Detail) :
    (process_individual_activity r db j d).fst "cache" = db "cache" := by
  unfold process_individual_activity
  cases r.get_activity_zones j with
  | err => rfl
  | ok z =>
    dsimp only
    rw [insertOk_get_other _ _ "streams" "cache" (by decide),
      insertOk_get_other _ _ "best_efforts" "cache" (by decide),
      insertOk_get_other _ _ "zones" "cache" (by decide),
      insertOk_get_other _ _ "splits" "cache" (by decide)]

theorem pia_rowsWithId (r : Remote) (db : Db) (j : Value) (d : Detail) (v : Value)
    (hne : v ≠ j) (t0 : String) :
    rowsWithId ((process_individual_activity r db j d).fst t0) v
      = rowsWithId (db t0) v := by
  unfold process_individual_activity
  cases r.get_activity_zones j with
  | err => rfl
  | ok z =>
    dsimp only
    rw [insertOk_rowsWithId _ _ _ _ _ (stamp_ne (get_streams_id r j) hne),
      insertOk_rowsWithId _ _ _ _ _ (stamp_ne (process_best_efforts_id j d.best_efforts) hne),
      insertOk_rowsWithId _ _ _ _ _ (stamp_ne (process_zones_id z j) hne),
      insertOk_rowsWithId _ _ _ _ _ (stamp_ne (process_splits_id j d) hne)]

theorem processStep_cache (r : Remote) (db : Db) (j : Value) :
    (processStep r db j).fst "cache" = db "cache" := by
  unfold processStep
  cases r.get_detailed_activity j with
  | err => rfl
  | ok od =>
    cases od with
    | none => rfl
    | some d => exact pia_cache r db j d

theorem processStep_rowsWithId (r : Remote) (db : Db) (j v : Value)
    (hcase : j = v → r.get_detailed_activity v = .err) (t0 : String) :
    rowsWithId ((processStep r db j).fst t0) v = rowsWithId (db t0) v := by
  unfold processStep
  cases hd : r.get_detailed_activity j with
  | err => rfl
  | ok od =>
    cases od with
    | none => rfl
    | some d =>
      dsimp only
      refine pia_rowsWithId r db j d v ?_ t0
      intro hvj
      subst hvj
      rw [hcase rfl] at hd
      exact Fetch.noConfusion hd

/-! ## Loop-level invariants (C1, C9) -/

theorem processLoop_claim_first (r : Remote) (ids : List Value) (v : Value) :
    ∀ db n, ((processLoop r db ids).snd.take n).any (isFetchFor v) = true →
      Event.cacheClaim v ∈ (processLoop r db ids).snd.take n := by
  induction ids with
  | nil =>
    intro db n h
    simp [processLoop] at h
  | cons a rest ih =>
    intro db n h
    have hsnd : (processLoop r db (a :: rest)).snd
        = Event.cacheClaim a :: ((processStep r (update_cache db a) a).snd
          ++ (processLoop r (processStep r (update_cache db a) a).fst rest).snd) := rfl
    rw [hsnd] at h ⊢
    cases n with
    | zero => simp at h
    | succ m =>
      rw [List.take_succ_cons] at h ⊢
      rw [List.any_cons, isFetchFor_claim, Bool.false_or] at h
      by_cases hva : v = a
      · subst hva
        exact List.mem_cons_self _ _
      · rw [List.take_append_eq_append_take, List.any_append] at h
        have h1 : ¬ ((processStep r (update_cache db a) a).snd.take m).any
            (isFetchFor v) = true := by
          intro hany
          obtain ⟨e, he, hf⟩ := List.any_eq_true.mp hany
          have h2 := processStep_eventId r (update_cache db a) a e (List.take_subset _ _ he)
          have h3 := isFetchFor_eventId v e hf
          rw [h3] at h2
          exact hva h2
        cases (Bool.or_eq_true _ _).mp h with
        | inl h2 => exact absurd h2 h1
        | inr h2 =>
          apply List.mem_cons_of_mem
          rw [List.take_append_eq_append_take]
          exact List.mem_append_right _ (ih _ _ h2)

theorem processLoop_cache_mono (r : Remote) (ids : List Value) (v : Value) :
    ∀ db, v ∈ selectIds (db "cache") "id" →
      v ∈ selectIds ((processLoop r db ids).fst "cache") "id" := by
  induction ids with
  | nil => exact fun db h => h
  | cons a rest ih =>
    intro db h
    show v ∈ selectIds ((processLoop r (processStep r (update_cache db a) a).fst
      rest).fst "cache") "id"
    apply ih
    rw [processStep_cache]
    exact update_cache_mem db a v h

theorem processLoop_cache_adds (r : Remote) (ids : List Value) (v : Value) :
    ∀ db, v ∈ ids → v ∈ selectIds ((processLoop r db ids).fst "cache") "id" := by
  induction ids with
  | nil =>
    intro db h
    cases h
  | cons a rest ih =>
    intro db hv
    show v ∈ selectIds ((processLoop r (processStep r (update_cache db a) a).fst
      rest).fst "cache") "id"
    rcases List.mem_cons.mp hv with rfl | hv2
    · apply processLoop_cache_mono
      rw [processStep_cache]
      exact update_cache_mem_self db v
    · exact ih _ hv2

theorem processLoop_rowsWithId (r : Remote) (ids : List Value) (v : Value)
    (hdet : r.get_detailed_activity v = .err) (t0 : String) (h0 : t0 ≠ "cache") :
    ∀ db, rowsWithId ((processLoop r db ids).fst t0) v = rowsWithId (db t0) v := by
  induction ids with
  | nil => exact fun db => rfl
  | cons a rest ih =>
    intro db
    show rowsWithId ((processLoop r (processStep r (update_cache db a) a).fst
      rest).fst t0) v = _
    rw [ih, processStep_rowsWithId r (update_cache db a) a v (fun _ => hdet) t0,
      update_cache_get_other db a t0 h0]

theorem mainBody_parts (cf : Bool) (norm : List Row → List Row) (r : Remote) (db : Db)
    (data : List Row)
    (hni : (dfIds (filterNewActivities (norm data)
      (get_ids_from_cache cf db))).isEmpty = false) :
    (mainBody cf norm r db data).events
      = (process_new_activities r db
          (dfIds (filterNewActivities (norm data) (get_ids_from_cache cf db)))
          (filterNewActivities (norm data) (get_ids_from_cache cf db))).snd
    ∧ ∀ t0, t0 ≠ "gear" →
        (mainBody cf norm r db data).db t0
          = (process_new_activities r db
              (dfIds (filterNewActivities (norm data) (get_ids_from_cache cf db)))
              (filterNewActivities (norm data) (get_ids_from_cache cf db))).fst t0 := by
  unfold mainBody
  simp only [hni, Bool.false_eq_true, if_false]
  cases hg : process_gear_data r (process_new_activities r db
      (dfIds (filterNewActivities (norm data) (get_ids_from_cache cf db)))
      (filterNewActivities (norm data) (get_ids_from_cache cf db))).fst with
  | err => exact ⟨rfl, fun t0 h => rfl⟩
  | ok db2 =>
    refine ⟨rfl, fun t0 h => ?_⟩
    unfold process_gear_data at hg
    cases hgg : r.get_gears with
    | err =>
      rw [hgg] at hg
      exact Fetch.noConfusion hg
    | ok gear_df =>
      rw [hgg] at hg
      dsimp only at hg
      rw [← Fetch.ok.inj hg]
      exact insertOk_get_other _ _ _ _ h

/-- C1: for every activity id in the novelty-filter result of an invocation, the
cache-claim write for that id precedes, in the trace of committed writes and
attempted fetches, every detail/zones/streams fetch for that id (any trace prefix
containing such a fetch already contains the claim); and if every fetch for that id
fails after the claim, the final store still holds the cache row for that id while
the splits, zones, best_efforts and streams tables hold exactly the rows for that id
that they held before the run. -/
theorem claim_C1 (cf : Bool) (norm : List Row → List Row) (r : Remote) (db : Db)
    (v : Value) (hv : v ∈ noveltyResult cf norm r db) :
    (∀ n, ((runMain cf norm r db).events.take n).any (isFetchFor v) = true →
        Event.cacheClaim v ∈ (runMain cf norm r db).events.take n)
    ∧ (r.get_detailed_activity v = .err ∧ r.get_activity_zones v = .err
        ∧ r.get_streams_request v = .err →
        v ∈ selectIds ((runMain cf norm r db).db "cache") "id"
        ∧ ∀ t0 ∈ (["splits", "zones", "best_efforts", "streams"] : List String),
            rowsWithId ((runMain cf norm r db).db t0) v = rowsWithId (db t0) v) := by
  rcases hl : r.get_activities with _ | data
  · simp [noveltyResult, hl] at hv
  · by_cases hie : data.isEmpty = true
    · simp [noveltyResult, hl, hie] at hv
    · have hie2 : data.isEmpty = false := by
        revert hie
        cases data.isEmpty <;> simp
      have hne : data ≠ [] := by
        intro he
        rw [he] at hie2
        exact absurd hie2 (by decide)
      have hv2 : v ∈ dfIds (filterNewActivities (norm data)
          (get_ids_from_cache cf db)) := by
        simpa [noveltyResult, hl, hie2] using hv
      have hni : (dfIds (filterNewActivities (norm data)
          (get_ids_from_cache cf db))).isEmpty = false := by
        cases hdd : dfIds (filterNewActivities (norm data) (get_ids_from_cache cf db)) with
        | nil =>
          rw [hdd] at hv2
          cases hv2
        | cons a as => rfl
      rw [runMain_eq_body cf norm r db data hl hne]
      constructor
      · intro n hany
        rw [(mainBody_parts cf norm r db data hni).1,
          process_new_activities_def] at hany ⊢
        exact processLoop_claim_first r _ v _ n hany
      · intro hfail
        constructor
        · rw [(mainBody_parts cf norm r db data hni).2 "cache" (by decide),
            process_new_activities_def]
          exact processLoop_cache_adds r _ v _ hv2
        · intro t0 ht0
          have hg : t0 ≠ "gear" := by fin_cases ht0 <;> decide
          have hc : t0 ≠ "cache" := by fin_cases ht0 <;> decide
          have ha : t0 ≠ "activities" := by fin_cases ht0 <;> decide
          rw [(mainBody_parts cf norm r db data hni).2 t0 hg,
            process_new_activities_def,
            processLoop_rowsWithId r _ v hfail.1 t0 hc,
            insertOk_get_other db _ "activities" t0 ha]

theorem claim_C1_witness :
    (Value.int 1 ∈ noveltyResult false (fun rows => rows) remoteErrData emptyDb
      ∧ remoteErrData.get_detailed_activity (Value.int 1) = .err
      ∧ remoteErrData.get_activity_zones (Value.int 1) = .err
      ∧ remoteErrData.get_streams_request (Value.int 1) = .err)
    ∧ (Value.int 1 ∈ selectIds ((runMain false (fun rows => rows) remoteErrData
          emptyDb).db "cache") "id"
      ∧ ∀ t0 ∈ (["splits", "zones", "best_efforts", "streams"] : List String),
          rowsWithId ((runMain false (fun rows => rows) remoteErrData emptyDb).db t0)
            (Value.int 1) = rowsWithId (emptyDb t0) (Value.int 1)) := by
  refine ⟨⟨by decide, rfl, rfl, rfl⟩, ?_⟩
  exact (claim_C1 false (fun rows => rows) remoteErrData emptyDb (Value.int 1)
    (by decide)).2 ⟨rfl, rfl, rfl⟩

/-! ## Idempotence of the full sync (C9) -/

theorem mainBody_cache_mono (cf : Bool) (norm : List Row → List Row) (r : Remote)
    (db : Db) (data : List Row) (v : Value) (h : v ∈ selectIds (db "cache") "id") :
    v ∈ selectIds ((mainBody cf norm r db data).db "cache") "id" := by
  by_cases hni : (dfIds (filterNewActivities (norm data)
      (get_ids_from_cache cf db))).isEmpty = true
  · have hb : mainBody cf norm r db data = { db := db, events := [], checks := 1 } := by
      unfold mainBody
      simp [hni]
    rw [hb]
    exact h
  · have hni2 : (dfIds (filterNewActivities (norm data)
        (get_ids_from_cache cf db))).isEmpty = false := by
      revert hni
      cases (dfIds (filterNewActivities (norm data) (get_ids_from_cache cf db))).isEmpty <;>
        simp
    rw [(mainBody_parts cf norm r db data hni2).2 "cache" (by decide),
      process_new_activities_def]
    apply processLoop_cache_mono
    rw [insertOk_get_other db _ "activities" "cache" (by decide)]
    exact h

theorem dfIds_mem_filterNew (df : List Row) (C : List Value) (v : Value)
    (hv : v ∈ dfIds df) (hnc : v ∉ C) : v ∈ dfIds (filterNewActivities df C) := by
  rcases List.mem_filterMap.mp hv with ⟨row, hrow, hlr⟩
  apply List.mem_filterMap.mpr
  refine ⟨row, List.mem_filter.mpr ⟨hrow, ?_⟩, hlr⟩
  unfold idInCache
  rw [hlr]
  simp [hnc]

theorem dfIds_filterNew_nil (df : List Row) (C : List Value)
    (h : ∀ v ∈ dfIds df, v ∈ C) : dfIds (filterNewActivities df C) = [] := by
  rw [List.eq_nil_iff_forall_not_mem]
  intro v hv
  rcases List.mem_filterMap.mp hv with ⟨row, hrow, hlr⟩
  have h2 := List.mem_filter.mp hrow
  have hid : idInCache row C = false := by simpa using h2.2
  have hvC := h v (List.mem_filterMap.mpr ⟨row, h2.1, hlr⟩)
  unfold idInCache at hid
  rw [hlr] at hid
  simp [hvC] at hid

theorem runMain_no_new (cf : Bool) (norm : List Row → List Row) (r : Remote) (db : Db)
    (h : noveltyResult cf norm r db = []) : runMain cf norm r db
      = { db := db, events := [],
          checks := (runMain cf norm r db).checks } := by
  rcases hl : r.get_activities with _ | data
  · simp [runMain, hl]
  · by_cases hie : data.isEmpty = true
    · simp [runMain, hl, hie]
    · have hie2 : data.isEmpty = false := by
        revert hie
        cases data.isEmpty <;> simp
      have h2 : dfIds (filterNewActivities (norm data) (get_ids_from_cache cf db)) = [] := by
        simpa [noveltyResult, hl, hie2] using h
      simp only [runMain, hl, hie2, Bool.false_eq_true, if_false]
      unfold mainBody
      simp [h2]

theorem runMain_covers (norm : List Row → List Row) (r : Remote) (db : Db)
    (data : List Row) (hl : r.get_activities = some data) (hne : data ≠ []) :
    ∀ v ∈ dfIds (norm data),
      v ∈ selectIds ((runMain false norm r db).db "cache") "id" := by
  intro v hv
  rw [runMain_eq_body false norm r db data hl hne]
  by_cases hvc : v ∈ get_ids_from_cache false db
  · exact mainBody_cache_mono false norm r db data v hvc
  · have hvn : v ∈ dfIds (filterNewActivities (norm data) (get_ids_from_cache false db)) :=
      dfIds_mem_filterNew _ _ v hv hvc
    have hni2 : (dfIds (filterNewActivities (norm data)
        (get_ids_from_cache false db))).isEmpty = false := by
      cases hdd : dfIds (filterNewActivities (norm data) (get_ids_from_cache false db)) with
      | nil =>
        rw [hdd] at hvn
        cases hvn
      | cons a as => rfl
    rw [(mainBody_parts false norm r db data hni2).2 "cache" (by decide),
      process_new_activities_def]
    exact processLoop_cache_adds r _ v _ hvn

/-- C9: running the full sync twice against the same remote data leaves the store
exactly as after the first run — in particular every table's row count is unchanged
after the second run: the second run's novelty filter excludes every
already-cached id (it returns the empty list), so no insert is re-issued at all
(vacuously, every re-issued insert is skipped). -/
theorem claim_C9 (norm : List Row → List Row) (r : Remote) (db : Db) :
    noveltyResult false norm r (runMain false norm r db).db = []
    ∧ (runMain false norm r (runMain false norm r db).db).db = (runMain false norm r db).db
    ∧ ∀ t0, ((runMain false norm r (runMain false norm r db).db).db t0).length
        = ((runMain false norm r db).db t0).length := by
  have hnov : noveltyResult false norm r (runMain false norm r db).db = [] := by
    rcases hl : r.get_activities with _ | data
    · simp [noveltyResult, hl]
    · by_cases hie : data.isEmpty = true
      · simp [noveltyResult, hl, hie]
      · have hie2 : data.isEmpty = false := by
          revert hie
          cases data.isEmpty <;> simp
        have hne : data ≠ [] := by
          intro he
          rw [he] at hie2
          exact absurd hie2 (by decide)
        simp only [noveltyResult, hl, hie2, Bool.false_eq_true, if_false]
        apply dfIds_filterNew_nil
        intro v hv
        exact runMain_covers norm r db data hl hne v hv
  have hdb : (runMain false norm r (runMain false norm r db).db).db
      = (runMain false norm r db).db := by
    rw [runMain_no_new false norm r _ hnov]
  exact ⟨hnov, hdb, fun t0 => by rw [hdb]⟩
